import Mathlib

/-!
Verification of the DiaBRO enemy editor frontend
(`src/tools/enemy_editor/static/app.js`) against its specification.

The relevant parts of the JavaScript source are shallowly embedded below:
pure computations become Lean functions, DOM drawing becomes an explicit
list of draw commands, interval tickers become step functions on explicit
state, and the event-driven ticker lifecycle becomes a small transition
system.  JavaScript numbers appearing in the embedded fragments are either
small nonnegative integers (modelled as `Nat`/`Int`) or exact dyadic
values (modelled as `ℚ`); none of the embedded arithmetic can overflow or
lose precision at the modelled inputs.
-/

/-! ## Animation cursors (Animation Clock) -/

/-- A `(frame, direction)` animation cursor, as kept by each ticker
(`frame`/`direction` locals in `startEnemyListAnimation` and
`startEditorPreview`, globals `animationFrame`/`animationDirection` for the
preview sidebar). -/
structure Cursor where
  frame : Nat
  direction : Nat
deriving DecidableEq, Repr

/-- One tick of the enemy-list thumbnail interval
(app.js 145-152): `frame = (frame + 1) % 4; if (frame === 0)
direction = (direction + 1) % 8`. -/
def listTick (c : Cursor) : Cursor :=
  let f := (c.frame + 1) % 4
  let d := if f = 0 then (c.direction + 1) % 8 else c.direction
  ⟨f, d⟩

/-- One tick of the editor-preview interval (app.js 844-851); same
transition as the thumbnail interval. -/
def editorTick (c : Cursor) : Cursor :=
  let f := (c.frame + 1) % 4
  let d := if f = 0 then (c.direction + 1) % 8 else c.direction
  ⟨f, d⟩

/-- One tick of the preview-sidebar interval (app.js 767-771):
`animationFrame = (animationFrame + 1) % 4` — the direction is not
touched by this ticker. -/
def sidebarTick (c : Cursor) : Cursor :=
  ⟨(c.frame + 1) % 4, c.direction⟩

/-- Manual override `prevDirection` (app.js 780-783): `(direction - 1 + 8) % 8` over JS
numbers; written `direction + 8 - 1` over `Nat`, which never truncates and
agrees with the source for every `direction ≥ 0`. -/
def prevDirectionStep (c : Cursor) : Cursor :=
  { c with direction := (c.direction + 8 - 1) % 8 }

/-- Manual override `nextDirection` (app.js 785-788): `(direction + 1) % 8`. -/
def nextDirectionStep (c : Cursor) : Cursor :=
  { c with direction := (c.direction + 1) % 8 }

/-- The operations that can touch a cursor: an auto-advancing tick
(thumbnail/editor rule), a frame-only tick (sidebar rule), and the two
manual direction overrides. -/
inductive CursorOp
  | autoTick
  | frameTick
  | prevDir
  | nextDir
deriving DecidableEq, Repr

/-- Apply one cursor operation. -/
def stepOp (c : Cursor) : CursorOp → Cursor
  | .autoTick => listTick c
  | .frameTick => sidebarTick c
  | .prevDir => prevDirectionStep c
  | .nextDir => nextDirectionStep c

/-- Run a sequence of cursor operations from a starting cursor. -/
def runOps (c : Cursor) (ops : List CursorOp) : Cursor :=
  ops.foldl stepOp c

/-- Every cursor starts at `(0, 0)` (`let frame = 0; let direction = 0`,
and module initializers `animationFrame = 0`, `animationDirection = 0`). -/
def initCursor : Cursor := ⟨0, 0⟩

/-- Range invariant on cursors. -/
def cursorInRange (c : Cursor) : Prop := c.frame < 4 ∧ c.direction < 8

instance (c : Cursor) : Decidable (cursorInRange c) := by
  unfold cursorInRange; infer_instance

/-! ## Draw commands (Compositor) -/

/-- The image slots a draw may reference: the enemy base sprite
(`currentSpriteImage` / the thumbnail `img`), the weapon overlay
(`currentWeaponImage`) and the player reference sprite
(`playerSpriteImage`). -/
inductive Img
  | base
  | weapon
  | player
deriving DecidableEq, Repr

/-- One canvas-context operation, in source-emission order.  Geometry is
exact: every coordinate the source computes is a dyadic rational. -/
inductive Cmd
  | clearRect (x y w h : ℚ)
  | drawImage (img : Img) (sx sy sw sh dx dy dw dh : ℚ)
  | setFillStyle (s : String)
  | fillRect (x y w h : ℚ)
  | setFont (s : String)
  | setTextAlign (s : String)
  | fillText (t : String) (x y : ℚ)
deriving DecidableEq

/-- The `draw()` of `startEnemyListAnimation` (app.js 136-141), on the 64px
thumbnail canvas: clear, then blit the current `256×256` cell. -/
def thumbDraw (frame direction : Nat) : List Cmd :=
  let sx : ℚ := ((frame % 4 : Nat) : ℚ) * 256
  let sy : ℚ := (direction : ℚ) * 256
  [.clearRect 0 0 64 64, .drawImage .base sx sy 256 256 0 0 64 64]

/-- The per-canvas command lists of one `draw()` of `startAnimation`
(preview sidebar). -/
structure SidebarCmds where
  player : List Cmd
  enemy : List Cmd
  weapon : List Cmd
deriving DecidableEq

/-- The `draw()` of `startAnimation` (app.js 721-763): the 128px player
canvas, the 128px enemy canvas and the 160px weapon-preview canvas.
Booleans record which image slots are non-null and whether the weapon
canvas element exists. -/
def sidebarDraw (hasPlayer hasSprite hasWeapon hasWeaponCanvas : Bool)
    (previewScale offX offY : ℚ) (frame direction : Nat) : SidebarCmds :=
  let sx : ℚ := ((frame % 4 : Nat) : ℚ) * 256
  let sy : ℚ := (direction : ℚ) * 256
  let playerCmds :=
    Cmd.clearRect 0 0 128 128 ::
    (if hasPlayer then [Cmd.drawImage .player sx sy 256 256 0 0 128 128]
     else [Cmd.setFillStyle "#3366aa", Cmd.fillRect 14 14 100 100,
           Cmd.setFillStyle "#fff", Cmd.setFont "12px sans-serif",
           Cmd.setTextAlign "center", Cmd.fillText "Игрок" 64 68])
  let enemyCmds :=
    Cmd.clearRect 0 0 128 128 ::
    (if hasSprite then
       let scaledSize := 128 * previewScale
       let off := (128 - scaledSize) / 2
       [Cmd.drawImage .base sx sy 256 256 off off scaledSize scaledSize]
     else [])
  let weaponCmds :=
    if hasWeaponCanvas then
      Cmd.clearRect 0 0 160 160 ::
      (if hasSprite then
         Cmd.drawImage .base sx sy 256 256 0 0 160 160 ::
         (if hasWeapon then
            let scale : ℚ := 160 / 256
            [Cmd.drawImage .weapon sx sy 256 256 (offX * scale) (offY * scale)
              160 160]
          else [])
       else [])
    else []
  ⟨playerCmds, enemyCmds, weaponCmds⟩

/-- The `draw()` of `startEditorPreview` (app.js 814-840): the 500px editor
canvas; placeholder fill and text when no base sprite is loaded. -/
def editorDraw (hasSprite hasWeapon : Bool) (offX offY : ℚ)
    (frame direction : Nat) : List Cmd :=
  let canvasSize : ℚ := 500
  let sx : ℚ := ((frame % 4 : Nat) : ℚ) * 256
  let sy : ℚ := (direction : ℚ) * 256
  Cmd.clearRect 0 0 canvasSize canvasSize ::
  (if hasSprite then
     Cmd.drawImage .base sx sy 256 256 0 0 canvasSize canvasSize ::
     (if hasWeapon then
        let scale := canvasSize / 256
        [Cmd.drawImage .weapon sx sy 256 256 (offX * scale) (offY * scale)
          canvasSize canvasSize]
      else [])
   else
     [Cmd.setFillStyle "#333", Cmd.fillRect 0 0 canvasSize canvasSize,
      Cmd.setFillStyle "#666", Cmd.setFont "14px sans-serif",
      Cmd.setTextAlign "center",
      Cmd.fillText "Нет спрайта" (canvasSize / 2) (canvasSize / 2 + 5)])

/-- Destination position of the first weapon-layer blit in a command
list, when one exists. -/
def weaponDest : List Cmd → Option (ℚ × ℚ)
  | [] => none
  | Cmd.drawImage i _ _ _ _ dx dy _ _ :: rest =>
      if i = Img.weapon then some (dx, dy) else weaponDest rest
  | _ :: rest => weaponDest rest

/-- Does a command list begin with a `clearRect`? -/
def startsWithClear : List Cmd → Bool
  | Cmd.clearRect _ _ _ _ :: _ => true
  | _ => false

/-- Does a command list contain any placeholder paint (a `fillRect` or a
`fillText`)? -/
def hasPlaceholder (l : List Cmd) : Bool :=
  l.any fun c =>
    match c with
    | Cmd.fillRect _ _ _ _ => true
    | Cmd.fillText _ _ _ => true
    | _ => false

/-! ## Enemy-list thumbnail fallback (renderEnemyList) -/

/-- The CSS color string built by `rgb(${color.join(',')})`. -/
def rgbStr (c : List Nat) : String :=
  "rgb(" ++ String.intercalate "," (c.map toString) ++ ")"

/-- The flat-color fallback swatch painted both when a record has no
`sprite_path` (app.js 113-120) and in `img.onerror`
(app.js 156-164): `fillStyle = rgb(color); fillRect(12, 12, 40, 40)`. -/
def flatSwatch (c : List Nat) : List Cmd :=
  [Cmd.setFillStyle (rgbStr c), Cmd.fillRect 12 12 40 40]

/-- What one enemy-list entry paints on its 64px canvas
(`renderEnemyList` 109-121 together with the `onload`/`onerror` handlers
of `startEnemyListAnimation`): the color defaults to `[200, 50, 50]`
(app.js 94), the sprite animation runs only when the record has a sprite
path and its image load succeeded, and every other case paints the flat
swatch. -/
def thumbRender (spritePath : Option String) (loadOk : Bool)
    (color : Option (List Nat)) (frame direction : Nat) : List Cmd :=
  let c := color.getD [200, 50, 50]
  match spritePath with
  | none => flatSwatch c
  | some _ => if loadOk then thumbDraw frame direction else flatSwatch c

/-! ## Attack-type coupling (updateAttackTypeUI) -/

/-- The two attack types selectable in the form. -/
inductive AttackType
  | melee
  | ranged
deriving DecidableEq, Repr

/-- The attack-range rewrite of `updateAttackTypeUI` (app.js 382-400):
`ranged` with a current value `< 5` writes `8.0`, `melee` with a current
value `> 3` writes `1.2`, anything else leaves the field alone.  The
field's parsed float value is modelled as a rational. -/
def updateAttackRange (t : AttackType) (v : ℚ) : ℚ :=
  match t with
  | .ranged => if v < 5 then 8 else v
  | .melee => if v > 3 then 12 / 10 else v

/-! ## Id normalization on create (saveEnemy) -/

/-- JS `String.prototype.replace` with a one-character string pattern:
replace only the first occurrence, leave the rest alone. -/
def replaceFirst (target repl : Char) : List Char → List Char
  | [] => []
  | c :: rest =>
      if c = target then repl :: rest else c :: replaceFirst target repl rest

/-- The id normalization in `saveEnemy`'s create path (app.js 502):
`data.id.toLowerCase().replace(' ', '_')`.  `Char.toLower` matches the JS
lower-casing on the ASCII ids this tool uses. -/
def normalizeId (id : List Char) : List Char :=
  replaceFirst ' ' '_' (id.map Char.toLower)

/-- The `currentEnemyId` update on a successful save (app.js 497-505):
`isNew` is `!currentEnemyId` and the create path adopts the normalized
submitted id as the current selection. -/
def savedSelection (currentId : Option (List Char)) (submittedId : List Char) :
    Option (List Char) :=
  if currentId.isNone then some (normalizeId submittedId) else currentId

/-! ## Thumbnail ticker lifecycle (renderEnemyList / startEnemyListAnimation) -/

/-- Ticker bookkeeping for one enemy-list entry whose record has a sprite
path.  `gen` counts canvas generations (each `renderEnemyList` rebuilds
the list DOM, so the entry's canvas element is replaced); `live` holds the
intervals created by `setInterval` and not yet cleared, each tagged with
the canvas generation its `draw` closure targets; `registry` is the
`enemyListAnimations[id]` slot; `pending` counts in-flight image loads
whose `onload` has not fired yet. -/
structure ThumbTickers where
  gen : Nat
  nextT : Nat
  live : List (Nat × Nat)
  registry : Option Nat
  pending : Nat
deriving DecidableEq, Repr

/-- The two events that drive the entry's ticker lifecycle. -/
inductive ListEv
  | render
  | fireLoad
deriving DecidableEq, Repr

/-- Event semantics: `render` is `renderEnemyList` (app.js 80-121), which clears the interval
registered in `enemyListAnimations`, resets the map, rebuilds the list
DOM (replacing the canvas: new generation) and starts a fresh image load.
`fireLoad`: an `img.onload` (app.js 126-155) fires, finds the current
canvas by id, starts a new interval drawing to it, and stores it in
`enemyListAnimations[id]`, overwriting — without clearing — whatever
interval was stored there. -/
def stepEv (s : ThumbTickers) : ListEv → ThumbTickers
  | .render =>
      let live1 :=
        match s.registry with
        | some t => s.live.filter fun p => p.1 ≠ t
        | none => s.live
      { gen := s.gen + 1, nextT := s.nextT, live := live1, registry := none,
        pending := s.pending + 1 }
  | .fireLoad =>
      if s.pending = 0 then s
      else
        { gen := s.gen, nextT := s.nextT + 1,
          live := (s.nextT, s.gen) :: s.live,
          registry := some s.nextT, pending := s.pending - 1 }

/-- Run a sequence of lifecycle events. -/
def runEvs (s : ThumbTickers) (evs : List ListEv) : ThumbTickers :=
  evs.foldl stepEv s

/-- Page-load state: no canvas yet built, no intervals, no pending loads. -/
def initTickers : ThumbTickers := ⟨0, 0, [], none, 0⟩

/-- The overlapping-load trace: the list is rendered twice while the
first load is still in flight, then both `onload` callbacks fire, then
the list is rendered a third time. -/
def leakTrace : List ListEv :=
  [.render, .render, .fireLoad, .fireLoad, .render]

/-! ## Weapon sprite endpoint choice (loadWeaponSprite) -/

/-- JS `String.prototype.includes`: contiguous-substring test. -/
def hasSub (needle : List Char) : List Char → Bool
  | [] => needle.isEmpty
  | c :: rest => needle.isPrefixOf (c :: rest) || hasSub needle rest

/-- JS `path.split('/').pop()`: the suffix after the last `'/'` (the
whole string when there is none). -/
def lastSeg (p : List Char) : List Char :=
  (p.reverse.takeWhile (fun c => c ≠ '/')).reverse

/-- The URL `loadWeaponSprite` assigns to `img.src` (app.js 434-440):
the weapons endpoint when the stored path contains the substring
`"weapon"`, the sprites endpoint otherwise. -/
def loadWeaponUrl (weaponPath : List Char) : List Char :=
  let filename := lastSeg weaponPath
  if hasSub "weapon".toList weaponPath then
    "/api/weapons/".toList ++ filename
  else
    "/api/sprites/".toList ++ filename

/-! ## Enemy selection (selectEnemy) -/

/-- An enemy record as held by the Enemy Record Store (`enemyTypes`).
Fields the backend may omit are `Option`s; `selectEnemy` supplies the
documented defaults via `||`. -/
structure EnemyRecord where
  name : Option String := none
  spritePath : Option String := none
  weaponPath : Option String := none
  spriteScale : Option ℚ := none
  maxHealth : Option Nat := none
  damage : Option Nat := none
  speed : Option ℚ := none
  aggroRange : Option ℚ := none
  attackRange : Option ℚ := none
  attackCooldown : Option ℚ := none
  attackType : Option AttackType := none
  projectilePath : Option String := none
  weaponOffset : Option (Int × Int) := none
  color : Option (Nat × Nat × Nat) := none
deriving DecidableEq, Repr

/-- The editable form fields of the editor panel. -/
structure FormState where
  enemyIdHidden : String
  enemyIdInput : String
  enemyIdDisabled : Bool
  name : String
  spritePath : String
  weaponPath : String
  spriteScale : ℚ
  maxHealth : Nat
  damage : Nat
  speed : ℚ
  aggroRange : ℚ
  attackRange : ℚ
  attackCooldown : ℚ
  attackType : AttackType
  projectilePath : String
  weaponOffsetX : Int
  weaponOffsetY : Int
  colorR : Nat
  colorG : Nat
  colorB : Nat
deriving DecidableEq, Repr

/-- The module-level editor state touched by `selectEnemy`: the current
selection, the form, the transient weapon-offset and scale variables
(`currentWeaponOffsetX/Y`, `currentPreviewScale`), and the preview state. -/
structure EditorState where
  currentEnemyId : Option String
  form : FormState
  weaponOffsetXState : Int
  weaponOffsetYState : Int
  previewScale : ℚ
  previewSidebarVisible : Bool
  editorTitle : String
  editorVisible : Bool
deriving DecidableEq, Repr

/-- The function `selectEnemy(id)` (app.js 307-380).  It first writes
`currentEnemyId = id`; when the record store has no entry for `id`
(`if (!enemy) return;`, app.js 311) it stops there; otherwise it
populates every form field from the record with the documented `||`
defaults, runs `updateAttackTypeUI`, closes the preview sidebar and shows
the editor. -/
def selectEnemy (store : List (String × EnemyRecord)) (id : String)
    (st : EditorState) : EditorState :=
  let st1 := { st with currentEnemyId := some id }
  match List.lookup id store with
  | none => st1
  | some e =>
      let wo := e.weaponOffset.getD (0, 0)
      let atk := e.attackType.getD .melee
      let color := e.color.getD (200, 50, 50)
      let scale := e.spriteScale.getD 1
      { currentEnemyId := some id
        form :=
          { enemyIdHidden := id
            enemyIdInput := id
            enemyIdDisabled := true
            name := e.name.getD id
            spritePath := e.spritePath.getD ""
            weaponPath := e.weaponPath.getD ""
            spriteScale := scale
            maxHealth := e.maxHealth.getD 30
            damage := e.damage.getD 5
            speed := e.speed.getD 6
            aggroRange := e.aggroRange.getD 150
            attackRange := updateAttackRange atk (e.attackRange.getD (12 / 10))
            attackCooldown := e.attackCooldown.getD (15 / 10)
            attackType := atk
            projectilePath := e.projectilePath.getD ""
            weaponOffsetX := wo.1
            weaponOffsetY := wo.2
            colorR := color.1
            colorG := color.2.1
            colorB := color.2.2 }
        weaponOffsetXState := wo.1
        weaponOffsetYState := wo.2
        previewScale := scale
        previewSidebarVisible := false
        editorTitle := "Редактирование: " ++ e.name.getD id
        editorVisible := true }

/-- A concrete editor state used to evaluate `selectEnemy` on a missing
id: the state right after `createNewEnemy` filled the form with the
new-enemy template (app.js 264-305). -/
def sampleState : EditorState :=
  { currentEnemyId := none
    form :=
      { enemyIdHidden := ""
        enemyIdInput := ""
        enemyIdDisabled := false
        name := ""
        spritePath := ""
        weaponPath := ""
        spriteScale := 1
        maxHealth := 30
        damage := 5
        speed := 6
        aggroRange := 150
        attackRange := 12 / 10
        attackCooldown := 15 / 10
        attackType := .melee
        projectilePath := ""
        weaponOffsetX := 0
        weaponOffsetY := 0
        colorR := 200
        colorG := 50
        colorB := 50 }
    weaponOffsetXState := 0
    weaponOffsetYState := 0
    previewScale := 1
    previewSidebarVisible := false
    editorTitle := "Новый тип врага"
    editorVisible := true }

/-! # Theorems -/

lemma stepOp_preserves_range (c : Cursor) (op : CursorOp)
    (h : cursorInRange c) : cursorInRange (stepOp c op) := by
  obtain ⟨hf, hd⟩ := h
  cases op <;>
    simp only [stepOp, listTick, sidebarTick, prevDirectionStep,
      nextDirectionStep, cursorInRange] <;>
    constructor <;>
    first
      | exact Nat.mod_lt _ (by norm_num)
      | exact hf
      | exact hd
      | (split <;> first | exact Nat.mod_lt _ (by norm_num) | exact hd)

lemma runOps_preserves_range (ops : List CursorOp) :
    ∀ c : Cursor, cursorInRange c → cursorInRange (runOps c ops) := by
  induction ops with
  | nil => intro c h; exact h
  | cons op rest ih =>
      intro c h
      exact ih (stepOp c op) (stepOp_preserves_range c op h)

lemma listTick_four (c : Cursor) (hf : c.frame < 4) :
    listTick (listTick (listTick (listTick c))) =
      ⟨c.frame, (c.direction + 1) % 8⟩ := by
  obtain ⟨f, d⟩ := c
  simp only [Cursor.mk.injEq] at *
  interval_cases f <;>
    simp [listTick]

/-- C1 counterexample: the preview-sidebar clock (`startAnimation`) is an
animation clock driving a preview surface, yet its tick from `(3, 0)`
wraps the frame to `0` without advancing the direction to `1`, and four
of its ticks from `(0, 0)` return to `(0, 0)` rather than `(0, 1)`. -/
theorem sidebar_tick_no_direction_advance :
    sidebarTick ⟨3, 0⟩ = ⟨0, 0⟩ ∧ sidebarTick ⟨3, 0⟩ ≠ ⟨0, 1⟩
    ∧ sidebarTick (sidebarTick (sidebarTick (sidebarTick ⟨0, 0⟩))) = ⟨0, 0⟩ := by
  refine ⟨by decide, by decide, by decide⟩

/-- C1 (amended): the enemy-list thumbnail clock and the editor-preview
clock obey the tick law — `f' = (f+1) mod 4`, `d' = (d+1) mod 8` exactly
when `f' = 0` — and four of their ticks from any in-range cursor `(f, d)`
yield `(f, (d+1) mod 8)`; the preview-sidebar clock advances only the
frame and leaves the direction unchanged. -/
theorem tick_transition_law (c : Cursor) (h : c.frame < 4) :
    (listTick c).frame = (c.frame + 1) % 4
    ∧ ((listTick c).direction =
        if (c.frame + 1) % 4 = 0 then (c.direction + 1) % 8 else c.direction)
    ∧ editorTick c = listTick c
    ∧ listTick (listTick (listTick (listTick c))) =
        ⟨c.frame, (c.direction + 1) % 8⟩
    ∧ editorTick (editorTick (editorTick (editorTick c))) =
        ⟨c.frame, (c.direction + 1) % 8⟩
    ∧ (sidebarTick c).frame = (c.frame + 1) % 4
    ∧ (sidebarTick c).direction = c.direction := by
  have he : editorTick = listTick := rfl
  refine ⟨rfl, rfl, rfl, listTick_four c h, ?_, rfl, rfl⟩
  rw [he]
  exact listTick_four c h

/-- C1 witness: instantiating the tick law at the in-range cursor
`(2, 5)`: four thumbnail ticks land on `(2, 6)`. -/
theorem tick_transition_law_witness :
    Cursor.frame ⟨2, 5⟩ < 4
    ∧ listTick (listTick (listTick (listTick ⟨2, 5⟩))) = ⟨2, 6⟩ := by
  refine ⟨by decide, ?_⟩
  have h := (tick_transition_law ⟨2, 5⟩ (by decide)).2.2.2.1
  simpa using h

/-- C2: starting from the initial cursor `(0, 0)`, every sequence of
ticks (auto or frame-only) and manual direction overrides keeps
`frame ∈ [0,3]` and `direction ∈ [0,7]`; in particular `prevDirection`
from direction `0` wraps to `7`. -/
theorem cursor_always_in_range :
    (∀ ops : List CursorOp, cursorInRange (runOps initCursor ops))
    ∧ ∀ f : Nat, (stepOp ⟨f, 0⟩ .prevDir).direction = 7 := by
  constructor
  · intro ops
    exact runOps_preserves_range ops initCursor (by decide)
  · intro f
    simp [stepOp, prevDirectionStep]

/-- C3: the stored weapon offset is rescaled linearly in the destination
surface size.  The 64px thumbnail and the two 128px sidebar canvases emit
no weapon-layer blit at all; the 160px weapon-preview canvas places the
weapon layer at `(offX·160/256, offY·160/256)`; the 500px editor canvas
places it at `(offX·500/256, offY·500/256)`. -/
theorem weapon_offset_scaling (offX offY ps : ℚ) (f d : Nat) :
    weaponDest (thumbDraw f d) = none
    ∧ weaponDest (sidebarDraw true true true true ps offX offY f d).player = none
    ∧ weaponDest (sidebarDraw true true true true ps offX offY f d).enemy = none
    ∧ weaponDest (sidebarDraw true true true true ps offX offY f d).weapon
        = some (offX * 160 / 256, offY * 160 / 256)
    ∧ weaponDest (editorDraw true true offX offY f d)
        = some (offX * 500 / 256, offY * 500 / 256) := by
  refine ⟨?_, ?_, ?_, ?_, ?_⟩ <;>
    simp [thumbDraw, sidebarDraw, editorDraw, weaponDest, mul_div_assoc]

/-- C4: switching the attack type to `ranged` rewrites an attack range
`< 5` to `8.0` and leaves ranges `≥ 5` untouched; switching to `melee`
rewrites a range `> 3` to `1.2` and leaves ranges `≤ 3` untouched. -/
theorem attack_type_coupling (v : ℚ) :
    (v < 5 → updateAttackRange .ranged v = 8)
    ∧ (5 ≤ v → updateAttackRange .ranged v = v)
    ∧ (3 < v → updateAttackRange .melee v = 12 / 10)
    ∧ (v ≤ 3 → updateAttackRange .melee v = v) := by
  refine ⟨fun h => ?_, fun h => ?_, fun h => ?_, fun h => ?_⟩
  · simp [updateAttackRange, h]
  · simp [updateAttackRange, not_lt.mpr h]
  · simp [updateAttackRange, h]
  · simp [updateAttackRange, not_lt.mpr h]

/-- C4 witness: `1.2` is rewritten to `8.0` on `ranged` and `8.0` back to
`1.2` on `melee`. -/
theorem attack_type_coupling_witness :
    ((12 / 10 : ℚ) < 5 ∧ updateAttackRange .ranged (12 / 10) = 8)
    ∧ ((3 : ℚ) < 8 ∧ updateAttackRange .melee 8 = 12 / 10) := by
  refine ⟨⟨by norm_num, (attack_type_coupling (12 / 10)).1 (by norm_num)⟩,
    ⟨by norm_num, (attack_type_coupling 8).2.2.1 (by norm_num)⟩⟩

lemma replaceFirst_append_of_not_mem (pre post : List Char)
    (h : ' ' ∉ pre) :
    replaceFirst ' ' '_' (pre ++ ' ' :: post) = pre ++ '_' :: post := by
  induction pre with
  | nil => simp [replaceFirst]
  | cons c rest ih =>
      rw [List.mem_cons, not_or] at h
      have hc : ¬ c = ' ' := fun he => h.1 he.symm
      simp [replaceFirst, hc, ih h.2]

/-- C5: on a successful create (`currentEnemyId` null), the client adopts
`id.toLowerCase().replace(' ', '_')` as the current selection; the
replacement acts only on the first space, leaving later spaces in place,
and `"Giant Rat"` normalizes to `"giant_rat"`. -/
theorem create_id_normalization (pre post : List Char) (h : ' ' ∉ pre) :
    savedSelection none "Giant Rat".toList = some "giant_rat".toList
    ∧ replaceFirst ' ' '_' (pre ++ ' ' :: post) = pre ++ '_' :: post
    ∧ ∀ sub : List Char,
        savedSelection none sub
          = some (replaceFirst ' ' '_' (sub.map Char.toLower)) := by
  refine ⟨by decide, replaceFirst_append_of_not_mem pre post h, fun sub => rfl⟩

/-- C5 witness: with `pre = "ab"` (space-free) and `post = "c d"`
(containing a further space), only the first space is replaced, and the
concrete normalization of `"Giant Rat"` holds. -/
theorem create_id_normalization_witness :
    (' ' ∉ "ab".toList)
    ∧ replaceFirst ' ' '_' ("ab".toList ++ ' ' :: "c d".toList)
        = "ab".toList ++ '_' :: "c d".toList
    ∧ savedSelection none "Giant Rat".toList = some "giant_rat".toList := by
  refine ⟨by decide,
    (create_id_normalization "ab".toList "c d".toList (by decide)).2.1,
    (create_id_normalization [] [] (by decide)).1⟩

/-- C6: an enemy-list entry with no sprite path, and an entry whose
sprite image load fails, both paint the flat-color swatch
`fillRect(12, 12, 40, 40)` with `rgb(color)`, the color defaulting to
`[200, 50, 50]` — and `thumbRender` is total, so no input throws. -/
theorem thumbnail_fallback_swatch (sp : String) (b : Bool)
    (c : Option (List Nat)) (f d : Nat) :
    thumbRender none b c f d = flatSwatch (c.getD [200, 50, 50])
    ∧ thumbRender (some sp) false c f d = flatSwatch (c.getD [200, 50, 50])
    ∧ flatSwatch (c.getD [200, 50, 50])
        = [Cmd.setFillStyle (rgbStr (c.getD [200, 50, 50])),
           Cmd.fillRect 12 12 40 40]
    ∧ rgbStr [200, 50, 50] = "rgb(200,50,50)" := by
  refine ⟨rfl, rfl, rfl, by decide⟩

/-- C7 counterexample: in the preview sidebar with no enemy sprite
loaded, the enemy canvas `draw` emits only the clear — no placeholder
fill or text is painted for the missing base layer. -/
theorem sidebar_enemy_no_placeholder :
    (sidebarDraw true false false true 1 0 0 0 0).enemy
        = [Cmd.clearRect 0 0 128 128]
    ∧ hasPlaceholder (sidebarDraw true false false true 1 0 0 0 0).enemy
        = false := by
  constructor <;> rfl

/-- C7 (amended): every draw routine clears its surface before
redrawing; the editor-preview canvas and the sidebar player canvas paint
a placeholder fill/text when their image is missing, but the sidebar
enemy canvas paints nothing beyond the clear when the base sprite is
missing (the surface is left blank, not in a prior-frame state). -/
theorem clear_before_redraw (hp hs hw : Bool) (ps offX offY : ℚ)
    (f d : Nat) :
    startsWithClear (thumbDraw f d) = true
    ∧ startsWithClear (sidebarDraw hp hs hw true ps offX offY f d).player = true
    ∧ startsWithClear (sidebarDraw hp hs hw true ps offX offY f d).enemy = true
    ∧ startsWithClear (sidebarDraw hp hs hw true ps offX offY f d).weapon = true
    ∧ startsWithClear (editorDraw hs hw offX offY f d) = true
    ∧ hasPlaceholder (editorDraw false hw offX offY f d) = true
    ∧ hasPlaceholder (sidebarDraw false hs hw true ps offX offY f d).player = true
    ∧ hasPlaceholder (sidebarDraw hp false hw true ps offX offY f d).enemy = false := by
  cases hp <;> cases hs <;> cases hw <;>
    simp [thumbDraw, sidebarDraw, editorDraw, startsWithClear, hasPlaceholder]

lemma leak_invariant_step (s : ThumbTickers) (ev : ListEv)
    (h1 : (0, 2) ∈ s.live) (h2 : s.registry ≠ some 0)
    (h3 : 0 < s.nextT) (h4 : 2 < s.gen) :
    (0, 2) ∈ (stepEv s ev).live ∧ (stepEv s ev).registry ≠ some 0
      ∧ 0 < (stepEv s ev).nextT ∧ 2 < (stepEv s ev).gen := by
  cases ev with
  | render =>
      cases hr : s.registry with
      | none =>
          simp only [stepEv, hr]
          exact ⟨h1, by simp, h3, by omega⟩
      | some t =>
          have ht : (0 : Nat) ≠ t := by
            intro he
            exact h2 (by rw [hr, ← he])
          simp only [stepEv, hr]
          refine ⟨?_, by simp, h3, by omega⟩
          simp [List.mem_filter, h1, ht]
  | fireLoad =>
      by_cases hp : s.pending = 0
      · simp only [stepEv, if_pos hp]
        exact ⟨h1, h2, h3, h4⟩
      · have hn : s.nextT ≠ 0 := Nat.pos_iff_ne_zero.mp h3
        simp only [stepEv, if_neg hp]
        refine ⟨List.mem_cons_of_mem _ h1, ?_, by omega, h4⟩
        intro he
        exact hn (Option.some.inj he)

lemma leak_persists (evs : List ListEv) :
    ∀ s : ThumbTickers,
      (0, 2) ∈ s.live → s.registry ≠ some 0 → 0 < s.nextT → 2 < s.gen →
      (0, 2) ∈ (runEvs s evs).live ∧ 2 < (runEvs s evs).gen := by
  induction evs with
  | nil =>
      intro s h1 _ _ h4
      exact ⟨h1, h4⟩
  | cons ev rest ih =>
      intro s h1 h2 h3 h4
      obtain ⟨g1, g2, g3, g4⟩ := leak_invariant_step s ev h1 h2 h3 h4
      exact ih (stepEv s ev) g1 g2 g3 g4

/-- C8 (code bug): rendering the enemy list twice while the first
thumbnail image load is in flight, then letting both `onload` callbacks
fire, leaves the first interval live but overwritten out of
`enemyListAnimations`; the next render removes the canvas it draws to
(generation 2 while the current generation is 3), and no later sequence
of renders or load completions ever cancels it — a started ticker with no
matching stop, targeting a removed surface. -/
theorem thumbnail_ticker_leak :
    (runEvs initTickers leakTrace).live = [(0, 2)]
    ∧ (runEvs initTickers leakTrace).gen = 3
    ∧ (runEvs initTickers leakTrace).registry = none
    ∧ ∀ evs : List ListEv,
        (0, 2) ∈ (runEvs (runEvs initTickers leakTrace) evs).live
        ∧ 2 < (runEvs (runEvs initTickers leakTrace) evs).gen := by
  refine ⟨by decide, by decide, by decide, fun evs => ?_⟩
  exact leak_persists evs (runEvs initTickers leakTrace)
    (by decide) (by decide) (by decide) (by decide)

lemma isPrefixOf_eq_append (l₁ : List Char) :
    ∀ l₂ : List Char, l₁.isPrefixOf l₂ = true ↔ ∃ b, l₂ = l₁ ++ b := by
  induction l₁ with
  | nil =>
      intro l₂
      simp [List.isPrefixOf]
  | cons x xs ih =>
      intro l₂
      cases l₂ with
      | nil =>
          simp [List.isPrefixOf]
      | cons y ys =>
          simp only [List.isPrefixOf, Bool.and_eq_true, beq_iff_eq, ih ys,
            List.cons_append, List.cons.injEq]
          constructor
          · rintro ⟨hxy, b, hb⟩
            exact ⟨b, hxy.symm, hb⟩
          · rintro ⟨b, hxy, hb⟩
            exact ⟨hxy.symm, b, hb⟩

lemma hasSub_iff_exists (n : List Char) :
    ∀ h : List Char, hasSub n h = true ↔ ∃ a b, h = a ++ (n ++ b) := by
  intro h
  induction h with
  | nil =>
      simp only [hasSub, List.isEmpty_iff]
      constructor
      · intro hn
        exact ⟨[], [], by simp [hn]⟩
      · rintro ⟨a, b, hab⟩
        rcases List.append_eq_nil.mp hab.symm with ⟨_, hnb⟩
        rcases List.append_eq_nil.mp hnb with ⟨hn, _⟩
        exact hn
  | cons c t ih =>
      rw [hasSub]
      simp only [Bool.or_eq_true, isPrefixOf_eq_append, ih]
      constructor
      · rintro (⟨b, hb⟩ | ⟨a, b, hab⟩)
        · exact ⟨[], b, by simpa using hb⟩
        · exact ⟨c :: a, b, by simp [hab]⟩
      · rintro ⟨a, b, hab⟩
        cases a with
        | nil =>
            left
            exact ⟨b, by simpa using hab⟩
        | cons a0 arest =>
            right
            have hsplit : c = a0 ∧ t = arest ++ (n ++ b) := by
              simpa using hab
            exact ⟨arest, b, hsplit.2⟩

/-- C9: `loadWeaponSprite` requests the weapons endpoint for exactly the
stored paths containing the substring `"weapon"` and the sprites endpoint
for all others; in particular a file from the enemy-sprite folder whose
name contains `"weapon"` is fetched from `/api/weapons/`. -/
theorem weapon_endpoint_choice (p : List Char) :
    (loadWeaponUrl p = "/api/weapons/".toList ++ lastSeg p
        ↔ ∃ a b, p = a ++ ("weapon".toList ++ b))
    ∧ (loadWeaponUrl p = "/api/sprites/".toList ++ lastSeg p
        ↔ ¬ ∃ a b, p = a ++ ("weapon".toList ++ b))
    ∧ loadWeaponUrl "game/images/enemy/big_weapon.png".toList
        = "/api/weapons/big_weapon.png".toList := by
  by_cases hs : hasSub "weapon".toList p = true
  · have hex : ∃ a b, p = a ++ ("weapon".toList ++ b) :=
      (hasSub_iff_exists "weapon".toList p).mp hs
    have hurl : loadWeaponUrl p = "/api/weapons/".toList ++ lastSeg p := by
      simp only [loadWeaponUrl]
      rw [if_pos hs]
    refine ⟨iff_of_true hurl hex, iff_of_false ?_ (not_not_intro hex), by decide⟩
    rw [hurl]
    intro he
    exact absurd (List.append_cancel_right he) (by decide)
  · have hex : ¬ ∃ a b, p = a ++ ("weapon".toList ++ b) := fun hx =>
      hs ((hasSub_iff_exists "weapon".toList p).mpr hx)
    have hurl : loadWeaponUrl p = "/api/sprites/".toList ++ lastSeg p := by
      simp only [loadWeaponUrl]
      rw [if_neg hs]
    refine ⟨iff_of_false ?_ hex, iff_of_true hurl hex, by decide⟩
    rw [hurl]
    intro he
    exact absurd (List.append_cancel_right he) (by decide)

/-- C10: `selectEnemy` called with an id absent from the enemy record
store sets `currentEnemyId` to that id and returns before any other
effect: the form, the weapon-offset state and the preview state are all
left unchanged. -/
theorem select_missing_id (store : List (String × EnemyRecord))
    (id : String) (st : EditorState) (h : List.lookup id store = none) :
    selectEnemy store id st = { st with currentEnemyId := some id } := by
  simp [selectEnemy, h]

/-- C10 witness: selecting the unknown id "ghost" in an empty store from
the new-enemy template state changes only the current selection. -/
theorem select_missing_id_witness :
    List.lookup "ghost" ([] : List (String × EnemyRecord)) = none
    ∧ selectEnemy [] "ghost" sampleState
        = { sampleState with currentEnemyId := some "ghost" } :=
  ⟨rfl, select_missing_id [] "ghost" sampleState rfl⟩
